import Mathlib

/-!
# Verification of the SearXNG content-acquisition pipeline

Shallow embedding of `src/searxng_client.ts` (class `SearXNGClient`): the
content-acquisition and extraction pipeline that fetches each search-result
URL, classifies the payload by content type, extracts text (PDF subprocess
path or two-tier HTML path), truncates it, and merges it back into the
originating result record.

External collaborators (the network, the `pdf2txt.py` subprocess, the JSDOM/
Readability/Cheerio libraries, the WHATWG URL validator) are modelled as
oracles supplied through environment structures; the control flow around
them is translated line by line from the source.
-/

set_option autoImplicit false

namespace SearXNG

/-- A JavaScript runtime value, as far as the pipeline inspects it:
`null`, `undefined`, booleans, numbers, strings, arrays and plain objects
(association lists of string keys, first binding wins on lookup). -/
inductive JSValue where
  | null
  | undefined
  | bool (b : Bool)
  | num (n : Int)
  | str (s : String)
  | arr (xs : List JSValue)
  | obj (fields : List (String × JSValue))

/-- JavaScript truthiness of a value (`!v` in the source is `!v.truthy`). -/
def JSValue.truthy : JSValue → Bool
  | .null => false
  | .undefined => false
  | .bool b => b
  | .num n => n != 0
  | .str s => s != ""
  | .arr _ => true
  | .obj _ => true

/-- `typeof v === 'object'` together with truthiness: in the source the item
check `!result || typeof result !== 'object'` admits exactly arrays and
plain objects (`null` is `typeof 'object'` but falsy). -/
def JSValue.isObjectLike : JSValue → Bool
  | .arr _ => true
  | .obj _ => true
  | _ => false

/-- Property access `v.k`: first binding of `k` in an object, `undefined`
otherwise (and on non-objects). -/
def getField (v : JSValue) (k : String) : JSValue :=
  match v with
  | .obj fields =>
    match fields.find? (fun p => p.1 = k) with
    | some p => p.2
    | none => .undefined
  | _ => .undefined

/-- The object-spread update `{ ...fields, k: v }`: every binding of `k` is
replaced by `v` when `k` is present, otherwise `(k, v)` is appended. -/
def spreadSet (fields : List (String × JSValue)) (k : String) (v : JSValue) :
    List (String × JSValue) :=
  if (fields.map Prod.fst).contains k then
    fields.map (fun p => if p.1 = k then (k, v) else p)
  else
    fields ++ [(k, v)]

/-- Helper for `jsIncludes`: does `p` occur as a contiguous run in the
second list? -/
def jsIncludesAux (p : List Char) : List Char → Bool
  | [] => p.isEmpty
  | c :: rest => p.isPrefixOf (c :: rest) || jsIncludesAux p rest

/-- JavaScript `String.prototype.includes`: substring containment. -/
def jsIncludes (s pat : String) : Bool :=
  jsIncludesAux pat.toList s.toList

/-- JavaScript `String.prototype.slice(0, n)`: the first `n` characters. -/
def jsSlice (s : String) (n : Nat) : String :=
  String.mk (s.data.take n)

/-- JavaScript `String.prototype.trim`. -/
def jsTrim (s : String) : String :=
  String.mk (((s.data.dropWhile Char.isWhitespace).reverse.dropWhile
    Char.isWhitespace).reverse)

/-- Helper for `collapseWs`: the flag records whether the previous kept
character came from a whitespace run. -/
def collapseWsAux : List Char → Bool → List Char
  | [], _ => []
  | c :: rest, prevWs =>
    if c.isWhitespace then
      if prevWs then collapseWsAux rest true
      else ' ' :: collapseWsAux rest true
    else c :: collapseWsAux rest false

/-- JavaScript `.replace(/\s+/g, ' ')`: every whitespace run becomes one
space. -/
def collapseWs (s : String) : String :=
  String.mk (collapseWsAux s.data false)

/-- `this.max_content_length` (line 22). -/
def max_content_length : Nat := 50000

/-- The slice of an axios response the pipeline inspects:
`response.headers['content-type']` (absent header modelled as `none`) and
`response.data` (the raw body; its `toString()` decoding is the string
itself in this model). -/
structure AxiosResponse where
  contentType : Option String
  data : String

/-- Outcome of the single `axios.get(url, ...)` call inside
`_fetch_url_content` (lines 67-72): either a response, or a rejection
(network error, timeout, or non-success status — axios rejects on all of
these). -/
inductive AxiosOutcome where
  | success (resp : AxiosResponse)
  | failure (msg : String)

/-- Instrumented result of `_fetch_url_content`: the returned value plus
the number of HTTP GET attempts the call performed. -/
structure FetchTrace where
  result : Option AxiosResponse
  attempts : Nat

/-- `_fetch_url_content` (lines 64-90): one `axios.get` inside a
`try`/`catch`; the catch logs and returns `null`, so the caller never sees
an exception and no second attempt is ever made. -/
def _fetch_url_content (outcome : AxiosOutcome) : FetchTrace :=
  match outcome with
  | .success resp => { result := some resp, attempts := 1 }
  | .failure _ => { result := none, attempts := 1 }

/-- Outcome of the `Promise.race` between `execAsync("pdf2txt.py ...")`
and the rejection timer (lines 100-105): the subprocess resolves with
`{stdout, stderr}`, or rejects (launch failure / non-zero exit — promisified
`exec` rejects on those), or the `pdfExtractionTimeout` timer rejects
first. -/
inductive ExecOutcome where
  | success (stdout stderr : String)
  | failure (msg : String)
  | timeout

/-- Oracle environment for one `_extract_text_from_pdf` call: whether
`fs.promises.writeFile` succeeds, the raced subprocess outcome, and whether
`fs.promises.unlink` succeeds. -/
structure PdfEnv where
  writeOk : Bool
  exec : ExecOutcome
  unlinkOk : Bool

/-- Instrumented result of `_extract_text_from_pdf`: the returned value
plus whether the temporary file was removed before returning. -/
structure PdfTrace where
  result : Option String
  tempFileRemoved : Bool

/-- `_extract_text_from_pdf` (lines 92-118), translated step by step:
write the temp file; race the subprocess against the timeout; on a resolved
race log any stderr, `unlink` the temp file and return trimmed stdout; any
rejection (write failure, subprocess failure, timeout, unlink failure)
jumps to the `catch`, which returns `null` — note the `unlink` on line 111
is only reached on the success path. -/
def _extract_text_from_pdf (env : PdfEnv) : PdfTrace :=
  if env.writeOk then
    match env.exec with
    | .success out _err =>
      if env.unlinkOk then
        { result := some (jsTrim out), tempFileRemoved := true }
      else
        { result := none, tempFileRemoved := false }
    | .failure _ => { result := none, tempFileRemoved := false }
    | .timeout => { result := none, tempFileRemoved := false }
  else
    { result := none, tempFileRemoved := false }

/-- Outcome of the synchronous JSDOM/Readability/Cheerio work inside the
`parsingPromise` executor (lines 151-188): either it throws (modelled as
`throws`, the executor's catch turns this into a rejection), or it yields
`article?.textContent` (`none` for a `null` article or absent text) and the
Cheerio body text after removing script/style/nav/footer/header —
the raw `$('body').text()` before the source's whitespace postprocessing. -/
inductive HtmlOutcome where
  | ok (readability : Option String) (cheerioBodyText : String)
  | throws (msg : String)

/-- Oracle environment for one `_parse_content` call: the PDF-branch
oracles and the HTML-branch oracle. -/
structure ParseEnv where
  pdf : PdfEnv
  html : HtmlOutcome

/-- The `{url, content}` record `_parse_content` resolves with. -/
structure ParsedContent where
  url : String
  content : String

/-- Instrumented result of `_parse_content`: the returned value plus which
route the dispatcher took (`usedPdf`) and whether the Cheerio fallback ran
(`usedCheerio`). -/
structure ParseTrace where
  result : Option ParsedContent
  usedPdf : Bool
  usedCheerio : Bool

/-- The source's `!content` test on `article?.textContent` (line 162):
true when the article is `null`/absent or its text is the empty string. -/
def tier1Falsy : Option String → Bool
  | none => true
  | some s => s = ""

/-- The local `content` of the executor after lines 160-169: Readability's
text, or — exactly when that is falsy — the whitespace-collapsed, trimmed
Cheerio body text. -/
def htmlContent (readability : Option String) (cheerioBodyText : String) :
    String :=
  if tier1Falsy readability then jsTrim (collapseWs cheerioBodyText)
  else readability.getD ""

/-- `_parse_content` (lines 120-205). The dispatcher tests
`contentType.includes('application/pdf')` on
`response.headers['content-type'] || ''`. PDF branch: extract, and return
the sliced text only when it is truthy (non-empty). HTML branch: empty
`html` fails; otherwise the executor runs synchronously: Readability first,
Cheerio fallback (`.replace(/\s+/g, ' ').trim()` applied to the body text)
exactly when `!content`; if the final `content` is still empty the first
`resolve(null)` wins (a promise settles once, so the unconditional second
`resolve` on line 179 is ignored); an executor throw rejects and is caught
by the outer `catch` (line 200). The 15 s `timeoutPromise` can never win
the race because the executor settles synchronously. -/
def _parse_content (env : ParseEnv) (response : AxiosResponse) (url : String) :
    ParseTrace :=
  if jsIncludes (response.contentType.getD "") "application/pdf" then
    match (_extract_text_from_pdf env.pdf).result with
    | some t =>
      if t = "" then { result := none, usedPdf := true, usedCheerio := false }
      else
        { result := some { url := url, content := jsSlice t max_content_length },
          usedPdf := true, usedCheerio := false }
    | none => { result := none, usedPdf := true, usedCheerio := false }
  else if response.data = "" then
    { result := none, usedPdf := false, usedCheerio := false }
  else
    match env.html with
    | .throws _ => { result := none, usedPdf := false, usedCheerio := false }
    | .ok readability cheerioBodyText =>
      if htmlContent readability cheerioBodyText = "" then
        { result := none, usedPdf := false,
          usedCheerio := tier1Falsy readability }
      else
        { result := some (ParsedContent.mk url
            (jsSlice (htmlContent readability cheerioBodyText)
              max_content_length)),
          usedPdf := false, usedCheerio := tier1Falsy readability }

/-- Per-URL oracle bundle for one loop iteration of
`fetch_and_parse_results`: the fetch outcome and the parse oracles. -/
structure ItemEnv where
  fetchOutcome : AxiosOutcome
  parse : ParseEnv

/-- Whole-pipeline oracle environment: the WHATWG `new URL(url)` validity
check (`_is_valid_url`, lines 243-250) and the per-URL oracles. -/
structure Env where
  is_valid_url : String → Bool
  item : String → ItemEnv

/-- The fetch-then-parse body of one loop iteration (lines 227-234):
`some content` exactly when the fetch returns a response, `_parse_content`
returns a record, and `parsedContent.content` is truthy (non-empty). -/
def attemptItem (env : Env) (u : String) : Option String :=
  match (_fetch_url_content (env.item u).fetchOutcome).result with
  | none => none
  | some resp =>
    match (_parse_content (env.item u).parse resp u).result with
    | none => none
    | some pc => if pc.content = "" then none else some pc.content

/-- One iteration of the `for` loop (lines 215-238): skip non-object items
(line 216; an array passes `typeof === 'object'` but its `url` access
yields `undefined`, so it is skipped by the URL check just like in the
source), skip items without a string `url` or with an invalid one
(line 222), then fetch and parse, and on success push the spread-merged
record `{ ...result, parsed_content }` (line 232). The per-iteration
`try`/`catch` (lines 227-237) never fires because both callees already
catch internally; any exception it did catch would likewise produce
`none`. -/
def processResult (env : Env) (result : JSValue) : Option JSValue :=
  match result with
  | .obj fields =>
    match getField (.obj fields) "url" with
    | .str u =>
      if env.is_valid_url u then
        match attemptItem env u with
        | some c => some (.obj (spreadSet fields "parsed_content" (.str c)))
        | none => none
      else none
    | _ => none
  | _ => none

/-- `fetch_and_parse_results` (lines 207-241): a non-array argument
(including `null`/`undefined`) returns `[]` immediately; otherwise each
item is processed in order and the successes are collected. -/
def fetch_and_parse_results (env : Env) (results : JSValue) : List JSValue :=
  match results with
  | .arr rs => rs.filterMap (processResult env)
  | _ => []

/-- `search_and_parse` (lines 252-275). The upstream `search` call is an
external collaborator; its outcome is supplied as an `Except` so that the
surrounding `try`/`catch` (line 271, any exception → `[]`) is explicit.
Line 257 rejects falsy or non-`typeof 'object'` responses; line 262
rejects a falsy or non-array `results` field; otherwise the pipeline runs
on `searchResults.results`. -/
def search_and_parse (env : Env) (searchOutcome : Except String JSValue) :
    List JSValue :=
  match searchOutcome with
  | .error _ => []
  | .ok searchResults =>
    if searchResults.isObjectLike then
      match getField searchResults "results" with
      | .arr rs => fetch_and_parse_results env (.arr rs)
      | _ => []
    else []

/-! ## Concrete fixtures

A fully successful environment (every URL valid, every fetch returning an
HTML page whose Readability extraction is `"Hello world"`), used to
instantiate theorems with hypotheses at concrete inputs. -/

/-- A successful HTML fetch response. -/
def okResponse : AxiosResponse :=
  { contentType := some "text/html"
    data := "<html><body><article>Hello world</article></body></html>" }

/-- Per-URL oracles for the successful environment. -/
def okItemEnv : ItemEnv :=
  { fetchOutcome := .success okResponse
    parse :=
      { pdf := { writeOk := true, exec := .timeout, unlinkOk := true }
        html := .ok (some "Hello world") "" } }

/-- The successful environment. -/
def okEnv : Env :=
  { is_valid_url := fun _ => true, item := fun _ => okItemEnv }

/-- A well-formed input item. -/
def okItem : JSValue :=
  .obj [("url", .str "https://a.test/"), ("title", .str "t")]

/-- The enriched record the pipeline produces from `okItem` under
`okEnv`. -/
def okOut : JSValue :=
  .obj [("url", .str "https://a.test/"), ("title", .str "t"),
        ("parsed_content", .str "Hello world")]

/-- An input item that already carries a `parsed_content` field. -/
def okFieldsPre : List (String × JSValue) :=
  [("url", .str "https://a.test/"), ("parsed_content", .str "old")]

/-- Character-wise lowercasing (ASCII letters). -/
def jsToLower (s : String) : String :=
  String.mk (s.data.map Char.toLower)

/-- The spec's reading of the dispatch test, stated from its words — a
"case/parameter-insensitive substring match for the binary-document media
type" — for comparison with the source's `contentType.includes(...)`
(which is `jsIncludes`, a case-sensitive substring match). -/
def specCaseInsensitiveIncludes (s pat : String) : Bool :=
  jsIncludes (jsToLower s) (jsToLower pat)

/-- Parse oracles whose PDF extractor would succeed — so that routing, not
extraction, decides the outcome. -/
def pdfCaseEnv : ParseEnv :=
  { pdf := { writeOk := true, exec := .success "Document text" "",
             unlinkOk := true },
    html := .ok (some "x") "" }

/-- Parse oracles where Readability yields the empty string and the
Cheerio body text is pure whitespace: both tiers empty. -/
def emptyTierEnv : ParseEnv :=
  { pdf := { writeOk := true, exec := .timeout, unlinkOk := true },
    html := .ok (some "") "  " }

/-- An HTML response with a non-empty body, for the two-tier fallback
scenario. -/
def emptyTierResponse : AxiosResponse :=
  { contentType := some "text/html", data := "<p></p>" }

/-! ## Helper lemmas -/

/-- A non-empty string has positive length. -/
theorem length_pos_of_ne_empty (s : String) (h : s ≠ "") : 0 < s.length := by
  cases s with
  | mk data =>
    cases data with
    | nil => exact absurd rfl h
    | cons c cs => simp [String.length]

/-- `jsSlice` never yields more than `n` characters. -/
theorem jsSlice_length_le (s : String) (n : Nat) : (jsSlice s n).length ≤ n := by
  have h : (jsSlice s n).length = (s.data.take n).length := rfl
  rw [h, List.length_take]
  omega

/-- Replacing the bindings of key `k` does not disturb lookups of another
key. -/
theorem find?_map_replace_ne (fields : List (String × JSValue)) (k k' : String)
    (v : JSValue) (h : k' ≠ k) :
    (fields.map (fun p => if p.1 = k then (k, v) else p)).find?
        (fun p => p.1 = k')
      = fields.find? (fun p => p.1 = k') := by
  induction fields with
  | nil => rfl
  | cons p fs ih =>
    by_cases hp : p.1 = k
    · simp only [List.map_cons, if_pos hp]
      rw [List.find?_cons_of_neg _
          (by simp only [decide_eq_true_eq]; exact Ne.symm h),
        List.find?_cons_of_neg _
          (by simp only [decide_eq_true_eq, hp]; exact Ne.symm h)]
      exact ih
    · simp only [List.map_cons, if_neg hp]
      by_cases hp' : p.1 = k'
      · rw [List.find?_cons_of_pos _ (by simp only [decide_eq_true_eq]; exact hp'),
          List.find?_cons_of_pos _ (by simp only [decide_eq_true_eq]; exact hp')]
      · rw [List.find?_cons_of_neg _ (by simp only [decide_eq_true_eq]; exact hp'),
          List.find?_cons_of_neg _ (by simp only [decide_eq_true_eq]; exact hp')]
        exact ih

/-- When every binding of `k` is replaced by `v` and some binding of `k`
exists, looking up `k` yields `v`. -/
theorem find?_map_replace_self (fields : List (String × JSValue)) (k : String)
    (v : JSValue) (h : (fields.map Prod.fst).contains k = true) :
    (fields.map (fun p => if p.1 = k then (k, v) else p)).find?
        (fun p => p.1 = k)
      = some (k, v) := by
  induction fields with
  | nil => exact Bool.noConfusion h
  | cons p fs ih =>
    by_cases hp : p.1 = k
    · simp only [List.map_cons, if_pos hp]
      rw [List.find?_cons_of_pos _ (by simp only [decide_eq_true_eq])]
    · simp only [List.map_cons, if_neg hp]
      rw [List.find?_cons_of_neg _ (by simp only [decide_eq_true_eq]; exact hp)]
      apply ih
      simp only [List.map_cons, List.contains_cons] at h
      rw [Bool.or_eq_true] at h
      rcases h with h1 | h1
      · exact absurd (beq_iff_eq.mp h1).symm hp
      · exact h1

/-- If no binding of `k` exists, looking up `k` fails. -/
theorem find?_eq_none_of_not_contains (fields : List (String × JSValue))
    (k : String) (h : (fields.map Prod.fst).contains k = false) :
    fields.find? (fun p => p.1 = k) = none := by
  induction fields with
  | nil => rfl
  | cons p fs ih =>
    simp only [List.map_cons, List.contains_cons] at h
    rw [Bool.or_eq_false_iff] at h
    have hpk : ¬p.1 = k := by
      intro hk
      rw [hk] at h
      simp at h
    rw [List.find?_cons_of_neg _ (by simp only [decide_eq_true_eq]; exact hpk)]
    exact ih h.2

/-- Appending a binding of `k` does not disturb lookups of another key. -/
theorem find?_append_single_ne (fields : List (String × JSValue))
    (k k' : String) (v : JSValue) (h : k' ≠ k) :
    (fields ++ [(k, v)]).find? (fun p => p.1 = k')
      = fields.find? (fun p => p.1 = k') := by
  induction fields with
  | nil =>
    simp only [List.nil_append]
    rw [List.find?_cons_of_neg _
      (by simp only [decide_eq_true_eq]; exact Ne.symm h)]
  | cons p fs ih =>
    by_cases hp : p.1 = k'
    · rw [List.cons_append,
        List.find?_cons_of_pos _ (by simp only [decide_eq_true_eq]; exact hp),
        List.find?_cons_of_pos _ (by simp only [decide_eq_true_eq]; exact hp)]
    · rw [List.cons_append,
        List.find?_cons_of_neg _ (by simp only [decide_eq_true_eq]; exact hp),
        List.find?_cons_of_neg _ (by simp only [decide_eq_true_eq]; exact hp)]
      exact ih

/-- When no binding of `k` exists, looking up `k` after appending `(k, v)`
yields `(k, v)`. -/
theorem find?_append_single_self (fields : List (String × JSValue))
    (k : String) (v : JSValue)
    (h : fields.find? (fun p => p.1 = k) = none) :
    (fields ++ [(k, v)]).find? (fun p => p.1 = k) = some (k, v) := by
  induction fields with
  | nil =>
    simp only [List.nil_append]
    exact List.find?_cons_of_pos _ (by simp only [decide_eq_true_eq])
  | cons p fs ih =>
    have hpk : ¬p.1 = k := by
      intro hk
      rw [List.find?_cons_of_pos _ (by simp only [decide_eq_true_eq]; exact hk)]
        at h
      exact Option.noConfusion h
    rw [List.find?_cons_of_neg _ (by simp only [decide_eq_true_eq]; exact hpk)]
      at h
    rw [List.cons_append,
      List.find?_cons_of_neg _ (by simp only [decide_eq_true_eq]; exact hpk)]
    exact ih h

/-- `spreadSet` leaves every other key's lookup unchanged. -/
theorem getField_spreadSet_ne (fields : List (String × JSValue))
    (k k' : String) (v : JSValue) (h : k' ≠ k) :
    getField (.obj (spreadSet fields k v)) k' = getField (.obj fields) k' := by
  by_cases hc : (fields.map Prod.fst).contains k = true
  · simp only [getField, spreadSet, if_pos hc,
      find?_map_replace_ne fields k k' v h]
  · simp only [getField, spreadSet, if_neg hc,
      find?_append_single_ne fields k k' v h]

/-- `spreadSet` makes the lookup of `k` yield `v`. -/
theorem getField_spreadSet_self (fields : List (String × JSValue))
    (k : String) (v : JSValue) :
    getField (.obj (spreadSet fields k v)) k = v := by
  by_cases hc : (fields.map Prod.fst).contains k = true
  · simp only [getField, spreadSet, if_pos hc,
      find?_map_replace_self fields k v hc]
  · have hnone := find?_eq_none_of_not_contains fields k (by simpa using hc)
    simp only [getField, spreadSet, if_neg hc,
      find?_append_single_self fields k v hnone]

/-- Any content record `_parse_content` returns was truncated to
`max_content_length`. -/
theorem parse_content_length_le (env : ParseEnv) (resp : AxiosResponse)
    (url : String) (pc : ParsedContent)
    (h : (_parse_content env resp url).result = some pc) :
    pc.content.length ≤ max_content_length := by
  unfold _parse_content at h
  split at h
  · split at h
    · split at h
      · exact Option.noConfusion h
      · cases h
        exact jsSlice_length_le _ _
    · exact Option.noConfusion h
  · split at h
    · exact Option.noConfusion h
    · split at h
      · exact Option.noConfusion h
      · split at h
        · exact Option.noConfusion h
        · cases h
          exact jsSlice_length_le _ _

/-- A successful `attemptItem` yields non-empty content within the
bound. -/
theorem attemptItem_bounds (env : Env) (u : String) (c : String)
    (h : attemptItem env u = some c) :
    0 < c.length ∧ c.length ≤ max_content_length := by
  unfold attemptItem at h
  split at h
  · exact Option.noConfusion h
  · rename_i resp hresp
    split at h
    · exact Option.noConfusion h
    · rename_i pc hpc
      split at h
      · exact Option.noConfusion h
      · rename_i hne
        cases h
        exact ⟨length_pos_of_ne_empty _ hne,
          parse_content_length_le _ _ _ _ hpc⟩

/-- Characterization of a successful loop iteration: the input was an
object with a valid string URL, the fetch-and-parse succeeded, and the
output is the spread-merged record. -/
theorem processResult_eq_some (env : Env) (r v : JSValue)
    (h : processResult env r = some v) :
    ∃ fields u c, r = .obj fields ∧ getField r "url" = .str u ∧
      env.is_valid_url u = true ∧ attemptItem env u = some c ∧
      v = .obj (spreadSet fields "parsed_content" (.str c)) := by
  unfold processResult at h
  split at h
  · rename_i fields
    split at h
    · rename_i u hu
      split at h
      · rename_i hvalid
        split at h
        · rename_i c hc
          cases h
          exact ⟨fields, u, c, rfl, hu, hvalid, hc, rfl⟩
        · exact Option.noConfusion h
      · exact Option.noConfusion h
    · exact Option.noConfusion h
  · exact Option.noConfusion h

/-- A successful loop iteration preserves the `url` field. -/
theorem processResult_url_preserved (env : Env) (r v : JSValue)
    (h : processResult env r = some v) :
    getField v "url" = getField r "url" := by
  obtain ⟨fields, u, c, hr, _, _, _, hv⟩ := processResult_eq_some env r v h
  subst hr
  subst hv
  exact getField_spreadSet_ne _ _ _ _ (by decide)

/-- Mapping a `filterMap` lands inside the mapped original list, in
order. -/
theorem filterMap_map_sublist {α β γ : Type} (f : α → Option β) (g : β → γ)
    (h : α → γ) (H : ∀ a b, f a = some b → g b = h a) :
    ∀ l : List α, ((l.filterMap f).map g).Sublist (l.map h)
  | [] => by simp
  | a :: l => by
    cases hfa : f a with
    | none =>
      rw [List.filterMap_cons_none hfa, List.map_cons]
      exact (filterMap_map_sublist f g h H l).cons (h a)
    | some b =>
      rw [List.filterMap_cons_some hfa, List.map_cons, List.map_cons,
        H a b hfa]
      exact (filterMap_map_sublist f g h H l).cons₂ (h a)

/-! ## Claims -/

/-- C1: every item in the list returned by `fetch_and_parse_results`
carries a `parsed_content` string whose length is strictly greater than 0
and at most `max_content_length` (default 50000); no output item has an
empty or undefined `parsed_content`. -/
theorem c1_parsed_content_bounds (env : Env) (results : JSValue)
    (v : JSValue) (hv : v ∈ fetch_and_parse_results env results) :
    ∃ s : String, getField v "parsed_content" = .str s ∧
      0 < s.length ∧ s.length ≤ max_content_length := by
  cases results
  case arr rs =>
    rcases List.mem_filterMap.mp hv with ⟨r, _, hr⟩
    obtain ⟨fields, u, c, _, _, _, hc, hvspread⟩ :=
      processResult_eq_some env r v hr
    subst hvspread
    exact ⟨c, getField_spreadSet_self _ _ _,
      (attemptItem_bounds env u c hc).1, (attemptItem_bounds env u c hc).2⟩
  all_goals exact absurd hv (List.not_mem_nil _)

/-- C1 witness: under the all-successful environment, the enrichment of
`okItem` satisfies the bounds. -/
theorem c1_parsed_content_bounds_witness :
    ∃ s : String, getField okOut "parsed_content" = .str s ∧
      0 < s.length ∧ s.length ≤ max_content_length :=
  c1_parsed_content_bounds okEnv (.arr [okItem]) okOut (List.Mem.head _)

/-- C2: the output of `fetch_and_parse_results` is no longer than the
input, the output URLs appear among the input URLs, and (via the sublist
of URL projections) output items keep the relative order of the inputs
they came from. -/
theorem c2_output_shape (env : Env) (rs : List JSValue) :
    (fetch_and_parse_results env (.arr rs)).length ≤ rs.length ∧
    ((fetch_and_parse_results env (.arr rs)).map
        (fun v => getField v "url")).Sublist
      (rs.map (fun r => getField r "url")) ∧
    ∀ v ∈ fetch_and_parse_results env (.arr rs),
      ∃ r ∈ rs, getField v "url" = getField r "url" := by
  refine ⟨List.length_filterMap_le _ _, ?_, ?_⟩
  · exact filterMap_map_sublist (processResult env) _ _
      (fun r v h => processResult_url_preserved env r v h) rs
  · intro v hv
    rcases List.mem_filterMap.mp hv with ⟨r, hrmem, hr⟩
    exact ⟨r, hrmem, processResult_url_preserved env r v hr⟩

/-- C2 witness: the bound and the URL-membership conclusion at a concrete
one-item batch. -/
theorem c2_output_shape_witness :
    (fetch_and_parse_results okEnv (.arr [okItem])).length ≤
        [okItem].length ∧
    ∃ r ∈ [okItem], getField okOut "url" = getField r "url" :=
  ⟨(c2_output_shape okEnv [okItem]).1,
   (c2_output_shape okEnv [okItem]).2.2 okOut (List.Mem.head _)⟩

/-- C7: `_fetch_url_content` makes exactly one GET attempt whatever the
outcome, returns `null` on any rejection (network error, timeout,
non-success status) and the response on success; its `Option` result means
no exception reaches the caller, and there are no retries. -/
theorem c7_fetch_single_attempt :
    (∀ msg : String, _fetch_url_content (.failure msg)
        = { result := none, attempts := 1 }) ∧
    ∀ resp : AxiosResponse, _fetch_url_content (.success resp)
        = { result := some resp, attempts := 1 } :=
  ⟨fun _ => rfl, fun _ => rfl⟩

/-- C8: per-item isolation — a failing item (fetch `null`, extraction
failure, or an exception while processing it) contributes nothing but
never prevents the items after it from being processed: the batch result
splits around it. -/
theorem c8_item_isolation (env : Env) (xs : List JSValue) (b : JSValue)
    (ys : List JSValue) (hb : processResult env b = none) :
    fetch_and_parse_results env (.arr (xs ++ b :: ys)) =
      fetch_and_parse_results env (.arr xs)
        ++ fetch_and_parse_results env (.arr ys) := by
  simp only [fetch_and_parse_results]
  rw [List.filterMap_append, List.filterMap_cons_none hb]

/-- C8 witness: a `null` item between two good items drops out while both
good items are still processed. -/
theorem c8_item_isolation_witness :
    fetch_and_parse_results okEnv (.arr ([okItem] ++ JSValue.null :: [okItem])) =
      fetch_and_parse_results okEnv (.arr [okItem])
        ++ fetch_and_parse_results okEnv (.arr [okItem]) :=
  c8_item_isolation okEnv [okItem] .null [okItem] rfl

/-- C3 counterexample: the write of the temporary file succeeds, the
extraction races into its timeout, and `_extract_text_from_pdf` returns
without removing the temporary file (the `unlink` on line 111 sits after
the race, so the timeout rejection jumps straight to the `catch`). -/
theorem c3_counterexample_timeout_leaks_tempfile :
    (_extract_text_from_pdf
        { writeOk := true, exec := .timeout, unlinkOk := true }).tempFileRemoved
      = false := rfl

/-- C3 (amended): the temporary file is removed iff the write succeeded,
the subprocess resolved before the timeout, and the unlink call itself
succeeded; on the extraction-timeout and subprocess-failure exits the file
is not removed. -/
theorem c3_tempfile_removed_iff (env : PdfEnv) :
    (_extract_text_from_pdf env).tempFileRemoved = true ↔
      env.writeOk = true ∧ env.unlinkOk = true ∧
        ∃ out err, env.exec = .success out err := by
  obtain ⟨w, ex, ul⟩ := env
  cases w <;> cases ul <;> cases ex <;>
    simp [_extract_text_from_pdf]

/-- C3 witness: on the fully successful path the temp file is removed. -/
theorem c3_tempfile_removed_iff_witness :
    (_extract_text_from_pdf
        { writeOk := true, exec := .success "Document text" "",
          unlinkOk := true }).tempFileRemoved = true :=
  (c3_tempfile_removed_iff _).mpr ⟨rfl, rfl, "Document text", "", rfl⟩

/-- C4: in the HTML branch of `_parse_content`, the Cheerio fallback is
attempted exactly when Readability's text is absent or empty, and the
result is `null` when both tiers yield empty text. -/
theorem c4_fallback_exactness (env : ParseEnv) (resp : AxiosResponse)
    (url : String) (rd : Option String) (ch : String)
    (hct : jsIncludes (resp.contentType.getD "") "application/pdf" = false)
    (hdata : resp.data ≠ "") (hhtml : env.html = .ok rd ch) :
    ((_parse_content env resp url).usedCheerio = true ↔
      (rd = none ∨ rd = some "")) ∧
    ((rd = none ∨ rd = some "") → jsTrim (collapseWs ch) = "" →
      (_parse_content env resp url).result = none) := by
  have hfalsy : tier1Falsy rd = true ↔ (rd = none ∨ rd = some "") := by
    cases rd with
    | none => simp [tier1Falsy]
    | some s => simp [tier1Falsy]
  have hstep : _parse_content env resp url =
      if htmlContent rd ch = "" then
        { result := none, usedPdf := false, usedCheerio := tier1Falsy rd }
      else
        { result := some (ParsedContent.mk url
            (jsSlice (htmlContent rd ch) max_content_length)),
          usedPdf := false, usedCheerio := tier1Falsy rd } := by
    unfold _parse_content
    rw [if_neg (by rw [hct]; exact Bool.false_ne_true), if_neg hdata, hhtml]
  constructor
  · rw [hstep]
    by_cases hc : htmlContent rd ch = ""
    · rw [if_pos hc]
      exact hfalsy
    · rw [if_neg hc]
      exact hfalsy
  · intro h1 h2
    have hcontent : htmlContent rd ch = "" := by
      unfold htmlContent
      rw [if_pos (hfalsy.mpr h1), h2]
    rw [hstep, if_pos hcontent]

/-- C4 witness: Readability yields the empty string and the Cheerio body
text is whitespace only — the fallback runs and the result is `null`. -/
theorem c4_fallback_exactness_witness :
    (_parse_content emptyTierEnv emptyTierResponse
        "https://a.test/").usedCheerio = true ∧
    (_parse_content emptyTierEnv emptyTierResponse
        "https://a.test/").result = none :=
  ⟨(c4_fallback_exactness emptyTierEnv emptyTierResponse "https://a.test/"
      (some "") "  " rfl (by decide) rfl).1.mpr (Or.inr rfl),
   (c4_fallback_exactness emptyTierEnv emptyTierResponse "https://a.test/"
      (some "") "  " rfl (by decide) rfl).2 (Or.inr rfl) rfl⟩

/-- C5 counterexample: the claim's case-insensitive reading matches
`'Application/PDF; charset=x'`, but the dispatcher — whose test is the
case-sensitive `contentType.includes('application/pdf')` — routes that
content type to the markup path, not the PDF path. -/
theorem c5_counterexample_case_sensitivity :
    specCaseInsensitiveIncludes "Application/PDF; charset=x"
        "application/pdf" = true ∧
    (_parse_content pdfCaseEnv
        { contentType := some "Application/PDF; charset=x", data := "<p>x</p>" }
        "https://a.test/").usedPdf = false :=
  ⟨rfl, rfl⟩

/-- C5 (amended): the dispatcher routes to the PDF extractor iff the
declared content-type contains the exact lowercase string
`application/pdf` as a case-SENSITIVE substring (the match still ignores
parameters, since it is a substring test); all other content types take
the markup path. -/
theorem c5_dispatch_case_sensitive_substring (env : ParseEnv)
    (resp : AxiosResponse) (url : String) :
    (_parse_content env resp url).usedPdf =
      jsIncludes (resp.contentType.getD "") "application/pdf" := by
  unfold _parse_content
  by_cases hpdf :
      jsIncludes (resp.contentType.getD "") "application/pdf" = true
  · rw [if_pos hpdf, hpdf]
    split
    · split <;> rfl
    · rfl
  · rw [if_neg hpdf,
      (by simpa using hpdf :
        jsIncludes (resp.contentType.getD "") "application/pdf" = false)]
    split
    · rfl
    · split
      · rfl
      · split <;> rfl

/-- C6: the public entry points never throw — `fetch_and_parse_results`
returns `[]` for any non-array argument (including `null`/`undefined`),
and `search_and_parse` returns `[]` when the search threw or when the
search response does not hold a `results` array. -/
theorem c6_invalid_inputs_yield_empty :
    (∀ (env : Env) (v : JSValue), (∀ rs, v ≠ .arr rs) →
      fetch_and_parse_results env v = []) ∧
    (∀ (env : Env) (msg : String),
      search_and_parse env (.error msg) = []) ∧
    (∀ (env : Env) (v : JSValue),
      (∀ rs, getField v "results" ≠ .arr rs) →
      search_and_parse env (.ok v) = []) := by
  refine ⟨?_, ?_, ?_⟩
  · intro env v hv
    cases v <;> first | rfl | exact absurd rfl (hv _)
  · intro env msg
    rfl
  · intro env v hv
    simp only [search_and_parse]
    split <;> rfl

/-- C6 witness: a `null` batch, a thrown search, and a search response
whose `results` is a string all yield `[]`. -/
theorem c6_invalid_inputs_yield_empty_witness :
    fetch_and_parse_results okEnv .null = [] ∧
    search_and_parse okEnv (.error "network down") = [] ∧
    search_and_parse okEnv (.ok (.obj [("results", .str "nope")])) = [] :=
  ⟨c6_invalid_inputs_yield_empty.1 okEnv .null
      (fun _ h => JSValue.noConfusion h),
   c6_invalid_inputs_yield_empty.2.1 okEnv "network down",
   c6_invalid_inputs_yield_empty.2.2 okEnv _
      (fun _ h => JSValue.noConfusion h)⟩

/-- C9 counterexample: an input item whose `parsed_content` is `"old"`
produces an output whose `parsed_content` is the freshly extracted
`"Hello world"` — so the output does not carry every original field with
its original value, refuting the claim as stated. -/
theorem c9_counterexample_overwrite :
    getField (.obj okFieldsPre) "parsed_content" = .str "old" ∧
    (processResult okEnv (.obj okFieldsPre)).map
        (fun v => getField v "parsed_content") = some (.str "Hello world") ∧
    JSValue.str "Hello world" ≠ JSValue.str "old" :=
  ⟨rfl, rfl, by simp⟩

/-- C9 (amended): for every input item that produces an output, every
field other than `parsed_content` is carried over with its original
value, and `parsed_content` holds exactly the freshly extracted content
(added when absent, overwriting any pre-existing value); the model is
pure, so the input item itself is never modified. -/
theorem c9_frame_condition (env : Env) (r v : JSValue)
    (h : processResult env r = some v) :
    (∀ k, k ≠ "parsed_content" → getField v k = getField r k) ∧
    ∃ u c, getField r "url" = .str u ∧ attemptItem env u = some c ∧
      getField v "parsed_content" = .str c := by
  obtain ⟨fields, u, c, hr, hu, _, hc, hv⟩ := processResult_eq_some env r v h
  subst hr
  subst hv
  exact ⟨fun k hk => getField_spreadSet_ne _ _ _ _ hk,
    u, c, hu, hc, getField_spreadSet_self _ _ _⟩

/-- C9 witness: the frame condition evaluated on the concrete enrichment
of `okItem`. -/
theorem c9_frame_condition_witness :
    getField okOut "title" = getField okItem "title" ∧
    getField okOut "url" = getField okItem "url" :=
  ⟨(c9_frame_condition okEnv okItem okOut rfl).1 "title" (by decide),
   (c9_frame_condition okEnv okItem okOut rfl).1 "url" (by decide)⟩

/-- C10: when the input item already possesses a `parsed_content` field,
a successful iteration still outputs the spread-merged record whose
`parsed_content` is the freshly extracted content — the pre-existing value
is silently overwritten, not preserved. -/
theorem c10_preexisting_parsed_content_overwritten (env : Env)
    (fields : List (String × JSValue)) (u c : String)
    (_hpre : (fields.map Prod.fst).contains "parsed_content" = true)
    (hurl : getField (.obj fields) "url" = .str u)
    (hvalid : env.is_valid_url u = true)
    (hc : attemptItem env u = some c) :
    processResult env (.obj fields)
        = some (.obj (spreadSet fields "parsed_content" (.str c))) ∧
    getField (.obj (spreadSet fields "parsed_content" (.str c)))
        "parsed_content" = .str c := by
  constructor
  · simp only [processResult, hurl, hvalid, if_true, hc]
  · exact getField_spreadSet_self _ _ _

/-- C10 witness: the item carrying `parsed_content: "old"` ends up with
the fresh `"Hello world"`. -/
theorem c10_preexisting_parsed_content_overwritten_witness :
    processResult okEnv (.obj okFieldsPre)
        = some (.obj (spreadSet okFieldsPre "parsed_content"
            (.str "Hello world"))) ∧
    getField (.obj (spreadSet okFieldsPre "parsed_content"
        (.str "Hello world"))) "parsed_content" = .str "Hello world" :=
  c10_preexisting_parsed_content_overwritten okEnv okFieldsPre
    "https://a.test/" "Hello world" rfl rfl rfl rfl

end SearXNG
